import Mathlib

/-!
Verification of the markup-lint core (src/lint/markup.go).

The walker (`lintHTMLTokens`) consumes a tokenized rendered HTML stream,
classifies text tokens as heading / list / prose, dispatches classified
blocks, and drives a shrinking context buffer used for position tracking.
Helpers from the `core` package are not part of the given sources, so they
are modelled from the specification where noted.
-/

namespace Vale

/-- Token types of the underlying HTML tokenizer (golang.org/x/net/html). -/
inductive TokenType where
  | ErrorToken
  | TextToken
  | StartTagToken
  | EndTagToken
  | SelfClosingTagToken
  | CommentToken
  | DoctypeToken
deriving DecidableEq

/-- Tag attribute: a key/value pair. -/
structure TagAttr where
  key : String
  val : String
deriving DecidableEq

/-- Tokenizer token: a type, the tag name or text payload, attributes. -/
structure Token where
  typ : TokenType
  data : String
  attrs : List TagAttr
deriving DecidableEq

/-- Dispatch-ready block (§3): residual context, text, scope selector.
Constructed by `NewBlock`. -/
structure Block where
  context : String
  text : String
  scope : String
deriving DecidableEq

/-- Modelled from usage in markup.go: NewBlock(ctx, txt, sel) builds the
Block handed to lintText; the constructor itself is not under src/. -/
def NewBlock (ctx txt sel : String) : Block := ⟨ctx, txt, sel⟩

/-- One dispatch to the downstream rule engine: lintText receives a Block
and a line number, lintProse receives the residual context, the text and a
line number. -/
inductive Dispatch where
  | text (b : Block) (line : Int)
  | prose (ctx : String) (txt : String) (line : Int)
deriving DecidableEq

/-- Text payload of a dispatch. -/
def dispatchTxt : Dispatch → String
  | Dispatch.text b _ => b.text
  | Dispatch.prose _ t _ => t

/-- Line number of a dispatch. -/
def dispatchLine : Dispatch → Int
  | Dispatch.text _ l => l
  | Dispatch.prose _ _ l => l

/-- Test whether the first list is an initial segment of the second. -/
def leadMatch : List Char → List Char → Bool
  | [], _ => true
  | _ :: _, [] => false
  | a :: as, b :: bs => a == b && leadMatch as bs

/-- Find the first occurrence of `pat` in the haystack; on success return
what remains after the match. -/
def searchDrop (pat : List Char) : List Char → Option (List Char)
  | [] => none
  | c :: cs =>
    if leadMatch pat (c :: cs) then some (List.drop pat.length (c :: cs))
    else searchDrop pat cs

/-- Modelled from the spec: core.Substitute is not under src/. Spec §4.4
step 1: search for the fragment as an exact substring at/after the cursor;
if found, remove it and everything preceding it from the buffer and report
success; otherwise leave the buffer unchanged and report failure. -/
def Substitute (src sub : String) : String × Bool :=
  if sub.isEmpty then (src, true)
  else
    match searchDrop sub.data src.data with
    | some rest => (⟨rest⟩, true)
    | none => (src, false)

/-- Split a character list on a separator character (mirrors Go
strings.Split with a one-character separator). -/
def splitOnChar (c : Char) : List Char → List (List Char)
  | [] => [[]]
  | x :: xs =>
    let r := splitOnChar c xs
    if x == c then [] :: r
    else
      match r with
      | [] => [[x]]
      | h :: t => (x :: h) :: t

/-- Split a string into its newline-separated segments (strings.Split with
separator newline). -/
def splitLines (s : String) : List String :=
  (splitOnChar (Char.ofNat 10) s.data).map (fun l => ⟨l⟩)

/-- Accumulating helper for `Fields`. -/
def fieldsAux : List Char → List Char → List (List Char)
  | cur, [] => if cur.isEmpty then [] else [cur.reverse]
  | cur, c :: cs =>
    if c.isWhitespace then
      if cur.isEmpty then fieldsAux [] cs else cur.reverse :: fieldsAux [] cs
    else fieldsAux (c :: cur) cs

/-- Split a string around runs of whitespace, dropping empty pieces
(mirrors Go strings.Fields). -/
def Fields (s : String) : List String :=
  (fieldsAux [] s.data).map (fun l => ⟨l⟩)

/-- Trim leading and trailing whitespace (mirrors Go strings.TrimSpace). -/
def TrimSpace (s : String) : String :=
  ⟨((s.data.dropWhile Char.isWhitespace).reverse.dropWhile Char.isWhitespace).reverse⟩

/-- Count the newline characters of a string (strings.Count with the
newline separator). -/
def countNewlines (s : String) : Nat :=
  s.data.countP (fun c => c == Char.ofNat 10)

/-- Modelled from the spec: core.PrepText is not under src/; §3 describes
it as a whitespace normalization of the raw source that preserves the
original line count. Modelled as removal of carriage-return characters,
which normalizes line endings and keeps the newline count unchanged. -/
def PrepText (s : String) : String :=
  ⟨s.data.filter (fun c => c != Char.ofNat 13)⟩

/-- Modelled from the library interface: html.UnescapeString
(golang.org/x/net/html) decodes HTML character entity references; modelled
on the basic named entities. -/
def unescapeList : List Char → List Char
  | [] => []
  | '&' :: 'a' :: 'm' :: 'p' :: ';' :: r => '&' :: unescapeList r
  | '&' :: 'l' :: 't' :: ';' :: r => '<' :: unescapeList r
  | '&' :: 'g' :: 't' :: ';' :: r => '>' :: unescapeList r
  | '&' :: 'q' :: 'u' :: 'o' :: 't' :: ';' :: r => '"' :: unescapeList r
  | c :: r => c :: unescapeList r

/-- Entity-decoding wrapper on strings. -/
def UnescapeString (s : String) : String := ⟨unescapeList s.data⟩

/-- Modelled from the spec: core.StringInSlice is not under src/; it tests
list membership of a string. -/
def StringInSlice (a : String) (l : List String) : Bool := l.contains a

/-- Modelled from the spec: core.CheckError is not under src/; per §7 an
error is reported exactly once and the pass continues only on success.
Returns whether the operation succeeded together with the number of
reports it produced. -/
def CheckError (ok : Bool) : Bool × Nat := (ok, if ok then 0 else 1)

/-- The regular expression test heading = `^h\d$`: the letter h followed
by a single digit. -/
def heading (s : String) : Bool :=
  match s.data with
  | ['h', c] => c.isDigit
  | _ => false

/-- Designated skip tags (markup.go line 50). -/
def skipTags : List String := ["script", "style", "pre", "code", "tt"]

/-- Designated skip classes (markup.go line 51); empty in the source. -/
def skipClasses : List String := []

/-- Value of the attribute named `key` on a token, or the empty string
(markup.go getAttribute). -/
def getAttribute (tok : Token) (key : String) : String :=
  match tok.attrs.find? (fun a => a.key == key) with
  | some a => a.val
  | none => ""

/-- Context update (markup.go updateCtx): for a text or comment token,
each newline-separated segment is first consumed whole; if the whole
segment is not found, each of its whitespace-separated words is consumed
independently, ignoring failures. -/
def updateCtx (ctx : String) (txt : String) (tokt : TokenType) : String :=
  if (tokt == TokenType.TextToken || tokt == TokenType.CommentToken) && txt != "" then
    (splitLines txt).foldl
      (fun c s =>
        let r := Substitute c s
        if r.2 then r.1
        else (Fields s).foldl (fun c2 w => (Substitute c2 w).1) r.1)
      ctx
  else ctx

/-- Attribute folding (markup.go clearElements): for img and a elements,
the values of alt and href attributes are consumed into the context as
synthesized text updates. -/
def clearElements (ctx : String) (tok : Token) : String :=
  if tok.data == "img" || tok.data == "a" then
    tok.attrs.foldl
      (fun c a =>
        if a.key == "alt" || a.key == "href" then updateCtx c a.val TokenType.TextToken
        else c)
      ctx
  else ctx

/-- The text payload of a token as the walker prepares it:
PrepText(UnescapeString(TrimSpace(tok.Data))). -/
def prepTok (tok : Token) : String :=
  PrepText (UnescapeString (TrimSpace tok.data))

/-- Walker state across the token loop of lintHTMLTokens: the tracked tag,
the last-seen class attribute, the skip flag inBlock, and the context
buffer. -/
structure WalkState where
  tag : String
  attr : String
  inBlock : Bool
  ctx : String
deriving DecidableEq

/-- Branch chain of one loop iteration of lintHTMLTokens (markup.go lines
70 to 84): flag toggling, tag tracking and dispatch, before the attribute
and context updates. -/
def branchStep (realExt : String) (lines : Int) (s : WalkState) (tok : Token) :
    WalkState × List Dispatch :=
  let txt := prepTok tok
  let skip := StringInSlice txt skipTags || StringInSlice s.attr skipClasses
  if tok.typ == TokenType.StartTagToken && skip then
    ({ s with inBlock := true }, [])
  else if skip && s.inBlock then
    ({ s with inBlock := false }, [])
  else if tok.typ == TokenType.StartTagToken then
    ({ s with tag := txt }, [])
  else if tok.typ == TokenType.TextToken && heading s.tag then
    (s, [Dispatch.text (NewBlock s.ctx txt ("text.heading" ++ realExt)) lines])
  else if tok.typ == TokenType.TextToken && s.tag == "li" then
    (s, [Dispatch.text (NewBlock s.ctx txt ("text.list" ++ realExt)) lines])
  else if tok.typ == TokenType.TextToken && !s.inBlock && !skip && txt != "" then
    (s, [Dispatch.prose s.ctx txt lines])
  else (s, [])

/-- One full loop iteration of lintHTMLTokens on a non-error token: the
branch chain, then the class-attribute update, then the context updates
through clearElements and updateCtx (markup.go lines 85 to 87). -/
def stepToken (realExt : String) (lines : Int) (s : WalkState) (tok : Token) :
    WalkState × List Dispatch :=
  let p := branchStep realExt lines s tok
  ({ p.1 with
      attr := getAttribute tok "class",
      ctx := updateCtx (clearElements p.1.ctx tok) (prepTok tok) tok.typ },
    p.2)

/-- The token loop of lintHTMLTokens: break at the first error token,
otherwise run one iteration and continue. Dispatches are collected in
order. -/
def lintHTMLLoop (realExt : String) (lines : Int) : WalkState → List Token → List Dispatch
  | _, [] => []
  | s, tok :: rest =>
    if tok.typ == TokenType.ErrorToken then []
    else
      let p := stepToken realExt lines s tok
      p.2 ++ lintHTMLLoop realExt lines p.1 rest

/-- lintHTMLTokens (markup.go line 53): seed the context from the prepared
raw source, compute the constant line argument, and walk the tokenized
rendered stream. -/
def lintHTMLTokens (realExt : String) (rawBytes : String) (fTokens : List Token)
    (offset : Int) : List Dispatch :=
  let ctx := PrepText rawBytes
  let lines : Int := (countNewlines ctx : Int) + 1 + offset
  lintHTMLLoop realExt lines ⟨"", "", false, ctx⟩ fTokens

/-- lintRST (markup.go line 142). Reading the file and running the
external rst2html process are abstracted as optional results: `none`
models a read failure, respectively a spawn failure or nonzero exit;
`some ts` models the tokenized captured stdout. Returns the dispatches
together with the number of error reports. -/
def lintRST (realExt : String) (readResult : Option String)
    (procResult : Option (List Token)) : List Dispatch × Nat :=
  match readResult with
  | none => ([], (CheckError false).2)
  | some b =>
    match procResult with
    | none => ([], (CheckError false).2)
    | some out => (lintHTMLTokens realExt b out 0, (CheckError true).2)

/-- lintADoc (markup.go line 156), abstracted exactly like lintRST with
the asciidoctor process in place of rst2html. -/
def lintADoc (realExt : String) (readResult : Option String)
    (procResult : Option (List Token)) : List Dispatch × Nat :=
  match readResult with
  | none => ([], (CheckError false).2)
  | some b =>
    match procResult with
    | none => ([], (CheckError false).2)
    | some out => (lintHTMLTokens realExt b out 0, (CheckError true).2)

/-- The Boolean skip test of one iteration: the prepared token text is a
skip tag, or the previously recorded class attribute is a skip class. -/
def skipTest (s : WalkState) (tok : Token) : Bool :=
  StringInSlice (prepTok tok) skipTags || StringInSlice s.attr skipClasses

/-! ## Helper lemmas about one iteration -/

theorem stepToken_snd (realExt : String) (lines : Int) (s : WalkState) (tok : Token) :
    (stepToken realExt lines s tok).2 = (branchStep realExt lines s tok).2 := rfl

theorem stepToken_inBlock (realExt : String) (lines : Int) (s : WalkState) (tok : Token) :
    (stepToken realExt lines s tok).1.inBlock = (branchStep realExt lines s tok).1.inBlock := rfl

theorem branchStep_ctx (realExt : String) (lines : Int) (s : WalkState) (tok : Token) :
    (branchStep realExt lines s tok).1.ctx = s.ctx := by
  simp only [branchStep]
  repeat' split
  all_goals rfl

theorem stepToken_ctx (realExt : String) (lines : Int) (s : WalkState) (tok : Token) :
    (stepToken realExt lines s tok).1.ctx
      = updateCtx (clearElements s.ctx tok) (prepTok tok) tok.typ := by
  simp only [stepToken]
  rw [branchStep_ctx]

theorem branchStep_mem (realExt : String) (lines : Int) (s : WalkState) (tok : Token)
    (d : Dispatch) (hd : d ∈ (branchStep realExt lines s tok).2) :
    tok.typ = TokenType.TextToken ∧ dispatchTxt d = prepTok tok ∧ dispatchLine d = lines := by
  simp only [branchStep] at hd
  repeat' split at hd
  all_goals simp only [List.mem_singleton, List.not_mem_nil] at hd
  all_goals first
    | exact absurd hd (fun h => h)
    | (subst hd
       rename_i hcond
       simp only [Bool.and_eq_true, beq_iff_eq] at hcond
       first
         | exact ⟨hcond.1, rfl, rfl⟩
         | exact ⟨hcond.1.1.1, rfl, rfl⟩)

theorem branchStep_prose (realExt : String) (lines : Int) (s : WalkState) (tok : Token)
    (c t : String) (l : Int)
    (hd : Dispatch.prose c t l ∈ (branchStep realExt lines s tok).2) :
    s.inBlock = false ∧ skipTest s tok = false
      ∧ t = prepTok tok ∧ c = s.ctx ∧ l = lines := by
  simp only [branchStep] at hd
  repeat' split at hd
  all_goals simp only [List.mem_singleton, List.not_mem_nil] at hd
  all_goals first
    | exact absurd hd (fun h => h)
    | exact Dispatch.noConfusion hd
    | (injection hd with h1 h2 h3
       rename_i hcond
       simp only [Bool.and_eq_true, beq_iff_eq, Bool.not_eq_true'] at hcond
       refine ⟨hcond.1.1.2, ?_, h2, h1, h3⟩
       simp only [skipTest]
       exact hcond.1.2)

theorem lintHTMLLoop_nil (realExt : String) (lines : Int) (s : WalkState) :
    lintHTMLLoop realExt lines s [] = [] := rfl

theorem lintHTMLLoop_cons (realExt : String) (lines : Int) (s : WalkState)
    (tok : Token) (rest : List Token) :
    lintHTMLLoop realExt lines s (tok :: rest)
      = if tok.typ == TokenType.ErrorToken then []
        else (stepToken realExt lines s tok).2
          ++ lintHTMLLoop realExt lines (stepToken realExt lines s tok).1 rest := rfl

theorem lintHTMLLoop_mem (realExt : String) (lines : Int) (s : WalkState)
    (ts : List Token) (d : Dispatch) (hd : d ∈ lintHTMLLoop realExt lines s ts) :
    ∃ tok ∈ ts, tok.typ = TokenType.TextToken
      ∧ dispatchTxt d = prepTok tok ∧ dispatchLine d = lines := by
  induction ts generalizing s with
  | nil => exact absurd hd (List.not_mem_nil d)
  | cons tok rest ih =>
    rw [lintHTMLLoop_cons] at hd
    split at hd
    · exact absurd hd (List.not_mem_nil d)
    · rw [List.mem_append, stepToken_snd] at hd
      rcases hd with h | h
      · exact ⟨tok, List.mem_cons_self tok rest, branchStep_mem realExt lines s tok d h⟩
      · rcases ih _ h with ⟨u, hu, hp⟩
        exact ⟨u, List.mem_cons_of_mem tok hu, hp⟩

theorem lintHTMLLoop_prose (realExt : String) (lines : Int) (s : WalkState)
    (ts : List Token) (c t : String) (l : Int)
    (hd : Dispatch.prose c t l ∈ lintHTMLLoop realExt lines s ts) :
    StringInSlice t skipTags = false := by
  induction ts generalizing s with
  | nil => exact absurd hd (List.not_mem_nil _)
  | cons tok rest ih =>
    rw [lintHTMLLoop_cons] at hd
    split at hd
    · exact absurd hd (List.not_mem_nil _)
    · rw [List.mem_append, stepToken_snd] at hd
      rcases hd with h | h
      · rcases branchStep_prose realExt lines s tok c t l h with ⟨_, hskip, ht, _, _⟩
        rw [ht]
        simp only [skipTest, Bool.or_eq_false_iff] at hskip
        exact hskip.1
      · exact ih _ h

/-! ## Claim theorems -/

/-- C1 (counterexample): in the stream for `<h1><code>x</code></h1>` the
text token x occurs inside the designated skip element code, yet the
walker dispatches it as a heading block, because the heading branch does
not consult the skip flag. -/
theorem c1_counterexample :
    lintHTMLTokens "" ""
      [⟨TokenType.StartTagToken, "h1", []⟩, ⟨TokenType.StartTagToken, "code", []⟩,
        ⟨TokenType.TextToken, "x", []⟩, ⟨TokenType.EndTagToken, "code", []⟩,
        ⟨TokenType.EndTagToken, "h1", []⟩] 0
      = [Dispatch.text ⟨"", "x", "text.heading"⟩ 1] := by decide

/-- C1 (amended): every token, skipped or not, drives the context buffer
through clearElements and updateCtx, and a text token is never dispatched
as prose while the walker's skip flag is set or its own skip test holds;
heading and list dispatch, however, do not consult the skip flag. -/
theorem c1_amended (realExt : String) (lines : Int) (s : WalkState) (tok : Token) :
    (stepToken realExt lines s tok).1.ctx
        = updateCtx (clearElements s.ctx tok) (prepTok tok) tok.typ
      ∧ ∀ c t l, Dispatch.prose c t l ∈ (stepToken realExt lines s tok).2 →
          s.inBlock = false ∧ skipTest s tok = false := by
  refine ⟨stepToken_ctx realExt lines s tok, ?_⟩
  intro c t l h
  rw [stepToken_snd] at h
  rcases branchStep_prose realExt lines s tok c t l h with ⟨h1, h2, _⟩
  exact ⟨h1, h2⟩

/-- C1 (witness): the amended theorem applied to a concrete prose
dispatch. -/
theorem c1_amended_witness :
    (⟨"", "", false, "hi"⟩ : WalkState).inBlock = false
      ∧ skipTest ⟨"", "", false, "hi"⟩ ⟨TokenType.TextToken, "hi", []⟩ = false :=
  (c1_amended "" 1 ⟨"", "", false, "hi"⟩ ⟨TokenType.TextToken, "hi", []⟩).2
    "hi" "hi" 1 (by decide)

/-- C2: when the external renderer fails to spawn or exits nonzero (and
likewise when the raw document cannot be read), lintRST and lintADoc
dispatch zero blocks and report the failure exactly once. -/
theorem c2_external_failure (realExt : String) (b : String) :
    lintRST realExt (some b) none = ([], 1)
      ∧ lintADoc realExt (some b) none = ([], 1)
      ∧ lintRST realExt none none = ([], 1)
      ∧ lintADoc realExt none none = ([], 1) :=
  ⟨rfl, rfl, rfl, rfl⟩

/-- C3 (counterexample): the heading test is the regular expression h
followed by any single digit, so text under the tag h7 — which is not one
of h1 through h6 — is dispatched as a heading, not as prose. -/
theorem c3_counterexample :
    lintHTMLTokens "" ""
      [⟨TokenType.StartTagToken, "h7", []⟩, ⟨TokenType.TextToken, "x", []⟩] 0
      = [Dispatch.text ⟨"", "x", "text.heading"⟩ 1] := by decide

/-- C3 (amended): for a text token passing the skip test, classification
follows the tracked tag in order: a tag of the form h followed by a digit
dispatches as heading, the tag li dispatches as list, and otherwise the
token is dispatched as prose exactly when the skip flag is clear and the
text is non-empty. -/
theorem c3_amended (realExt : String) (lines : Int) (s : WalkState) (tok : Token)
    (htyp : tok.typ = TokenType.TextToken) (hskip : skipTest s tok = false) :
    (stepToken realExt lines s tok).2
      = if heading s.tag
        then [Dispatch.text (NewBlock s.ctx (prepTok tok) ("text.heading" ++ realExt)) lines]
        else if s.tag == "li"
        then [Dispatch.text (NewBlock s.ctx (prepTok tok) ("text.list" ++ realExt)) lines]
        else if !s.inBlock && prepTok tok != ""
        then [Dispatch.prose s.ctx (prepTok tok) lines]
        else [] := by
  rw [stepToken_snd]
  simp only [skipTest, Bool.or_eq_false_iff] at hskip
  simp only [branchStep, htyp, hskip.1, hskip.2]
  simp
  split_ifs <;> rfl

/-- C3 (witness): the amended classification applied to a concrete text
token under the tracked tag h1. -/
theorem c3_amended_witness :
    (stepToken ".md" 5 ⟨"h1", "", false, "c"⟩ ⟨TokenType.TextToken, "x", []⟩).2
      = if heading "h1"
        then [Dispatch.text
            (NewBlock "c" (prepTok ⟨TokenType.TextToken, "x", []⟩) ("text.heading" ++ ".md")) 5]
        else if "h1" == "li"
        then [Dispatch.text
            (NewBlock "c" (prepTok ⟨TokenType.TextToken, "x", []⟩) ("text.list" ++ ".md")) 5]
        else if !false && prepTok ⟨TokenType.TextToken, "x", []⟩ != ""
        then [Dispatch.prose "c" (prepTok ⟨TokenType.TextToken, "x", []⟩) 5]
        else [] :=
  c3_amended ".md" 5 ⟨"h1", "", false, "c"⟩ ⟨TokenType.TextToken, "x", []⟩ rfl (by decide)

theorem Substitute_not_found (c w : String) (h : (Substitute c w).2 = false) :
    (Substitute c w).1 = c := by
  by_cases he : w.isEmpty
  · simp [Substitute, he] at h
  · rcases hsd : searchDrop w.data c.data with _ | rest
    · simp [Substitute, he, hsd]
    · simp [Substitute, he, hsd] at h

/-- C4: when a single-line fragment has no exact match in the buffer, the
fragment is split on whitespace and each word is consumed independently;
a word that cannot be located leaves the buffer unchanged and signals
nothing. -/
theorem c4_word_fallback (ctx s : String)
    (hline : splitLines s = [s]) (hfail : (Substitute ctx s).2 = false) :
    updateCtx ctx s TokenType.TextToken
        = (Fields s).foldl (fun c2 w => (Substitute c2 w).1) ctx
      ∧ ∀ c2 w, (Substitute c2 w).2 = false → (Substitute c2 w).1 = c2 := by
  refine ⟨?_, fun c2 w h => Substitute_not_found c2 w h⟩
  by_cases hs : s = ""
  · subst hs
    simp [updateCtx, Fields, fieldsAux]
  · simp only [updateCtx, hline]
    simp only [List.foldl_cons, List.foldl_nil]
    simp [hs, hfail, Substitute_not_found ctx s hfail]

/-- C4 (witness): word-by-word fallback on a concrete fragment that has
no exact match. -/
theorem c4_witness :
    updateCtx "hello world" "hello there" TokenType.TextToken
      = (Fields "hello there").foldl (fun c2 w => (Substitute c2 w).1) "hello world" :=
  (c4_word_fallback "hello world" "hello there" (by decide) (by decide)).1

/-- C5: the skip state is the single boolean inBlock: a start tag passing
the skip test sets it, any later non-start-tag token passing the skip test
clears it; nested skip regions are not distinguished, as the concrete
stream for `<pre><code>a</code>b</pre>` shows — b is dispatched as prose
although it is still inside the outer pre element. -/
theorem c5_flat_skip_flag :
    (∀ (realExt : String) (lines : Int) (s : WalkState) (tok : Token),
        tok.typ = TokenType.StartTagToken → skipTest s tok = true →
        (stepToken realExt lines s tok).1.inBlock = true)
      ∧ (∀ (realExt : String) (lines : Int) (s : WalkState) (tok : Token),
          tok.typ ≠ TokenType.StartTagToken → skipTest s tok = true →
          s.inBlock = true → (stepToken realExt lines s tok).1.inBlock = false)
      ∧ lintHTMLTokens "" "ab"
          [⟨TokenType.StartTagToken, "pre", []⟩, ⟨TokenType.StartTagToken, "code", []⟩,
            ⟨TokenType.TextToken, "a", []⟩, ⟨TokenType.EndTagToken, "code", []⟩,
            ⟨TokenType.TextToken, "b", []⟩, ⟨TokenType.EndTagToken, "pre", []⟩] 0
        = [Dispatch.prose "b" "b" 1] := by
  refine ⟨?_, ?_, by decide⟩
  · intro realExt lines s tok htyp hskip
    simp only [skipTest] at hskip
    rw [stepToken_inBlock]
    simp only [branchStep, htyp, hskip]
    simp
  · intro realExt lines s tok htyp hskip hin
    simp only [skipTest] at hskip
    rw [stepToken_inBlock]
    simp only [branchStep, hskip, hin]
    simp [htyp]

/-- C5 (witness): a start tag of the skip element code sets the flag. -/
theorem c5_witness :
    (stepToken "" 1 ⟨"", "", false, ""⟩ ⟨TokenType.StartTagToken, "code", []⟩).1.inBlock
      = true :=
  c5_flat_skip_flag.1 "" 1 ⟨"", "", false, ""⟩ ⟨TokenType.StartTagToken, "code", []⟩
    rfl (by decide)

/-- C6: every dispatched block's text is the prepared payload of some text
token of the stream, so attribute values (image alt text, anchor href)
never appear as dispatched blocks; on the concrete img stream the alt
value cat is nevertheless consumed from the context buffer before the
following real text token is dispatched. -/
theorem c6_attribute_folding :
    (∀ (realExt raw : String) (toks : List Token) (off : Int) (d : Dispatch),
        d ∈ lintHTMLTokens realExt raw toks off →
        ∃ tok ∈ toks, tok.typ = TokenType.TextToken ∧ dispatchTxt d = prepTok tok)
      ∧ lintHTMLTokens "" "cat hello"
          [⟨TokenType.SelfClosingTagToken, "img", [⟨"alt", "cat"⟩]⟩,
            ⟨TokenType.TextToken, "hello", []⟩] 0
        = [Dispatch.prose " hello" "hello" 1] := by
  refine ⟨?_, by decide⟩
  intro realExt raw toks off d hd
  simp only [lintHTMLTokens] at hd
  rcases lintHTMLLoop_mem _ _ _ _ _ hd with ⟨u, hu, h1, h2, _⟩
  exact ⟨u, hu, h1, h2⟩

/-- C6 (witness): the block-text invariant applied to a concrete prose
dispatch. -/
theorem c6_witness :
    ∃ tok ∈ [(⟨TokenType.TextToken, "hi", []⟩ : Token)],
      tok.typ = TokenType.TextToken
        ∧ dispatchTxt (Dispatch.prose "hi" "hi" 1) = prepTok tok :=
  c6_attribute_folding.1 "" "hi" [⟨TokenType.TextToken, "hi", []⟩] 0
    (Dispatch.prose "hi" "hi" 1) (by decide)

/-- C7: the walk stops at the first error token: tokens after it
contribute nothing, and exactly the blocks dispatched before it are kept;
the walk still returns normally. -/
theorem c7_stops_at_error (realExt : String) (lines : Int) (s : WalkState)
    (ts1 : List Token) (t : Token) (ts2 : List Token)
    (ht : t.typ = TokenType.ErrorToken)
    (hclean : ∀ u ∈ ts1, u.typ ≠ TokenType.ErrorToken) :
    lintHTMLLoop realExt lines s (ts1 ++ t :: ts2)
      = lintHTMLLoop realExt lines s ts1 := by
  induction ts1 generalizing s with
  | nil =>
    simp only [List.nil_append, lintHTMLLoop_cons, ht, lintHTMLLoop_nil]
    simp
  | cons u us ih =>
    have hu : (u.typ == TokenType.ErrorToken) = false := by
      simp [hclean u (List.mem_cons_self u us)]
    simp only [List.cons_append, lintHTMLLoop_cons, hu]
    rw [ih _ (fun v hv => hclean v (List.mem_cons_of_mem u hv))]

/-- C7 (witness): a concrete truncated stream with one block before the
error boundary. -/
theorem c7_witness :
    lintHTMLLoop "" 1 ⟨"", "", false, "ab"⟩
        [⟨TokenType.TextToken, "a", []⟩, ⟨TokenType.ErrorToken, "", []⟩,
          ⟨TokenType.TextToken, "b", []⟩]
      = lintHTMLLoop "" 1 ⟨"", "", false, "ab"⟩ [⟨TokenType.TextToken, "a", []⟩] :=
  c7_stops_at_error "" 1 ⟨"", "", false, "ab"⟩ [⟨TokenType.TextToken, "a", []⟩]
    ⟨TokenType.ErrorToken, "", []⟩ [⟨TokenType.TextToken, "b", []⟩] rfl (by decide)

/-- C8: every dispatch of one lintHTMLTokens pass carries the same line
argument, computed once before the walk as the newline count of the
prepared raw source plus one plus the offset. -/
theorem c8_line_constant (realExt raw : String) (toks : List Token) (off : Int)
    (d : Dispatch) (hd : d ∈ lintHTMLTokens realExt raw toks off) :
    dispatchLine d = (countNewlines (PrepText raw) : Int) + 1 + off := by
  simp only [lintHTMLTokens] at hd
  rcases lintHTMLLoop_mem _ _ _ _ _ hd with ⟨_, _, _, _, hl⟩
  exact hl

/-- C8 (witness): the constant line argument on a concrete two-line raw
source with offset two. -/
theorem c8_witness :
    dispatchLine (Dispatch.prose "a\nb" "x" 4)
      = (countNewlines (PrepText "a\nb") : Int) + 1 + 2 :=
  c8_line_constant "" "a\nb" [⟨TokenType.TextToken, "x", []⟩] 2
    (Dispatch.prose "a\nb" "x" 4) (by decide)

/-- C9: a text token whose prepared text equals a skip tag name is never
dispatched as prose: every prose dispatch of a pass carries a text that is
not a skip tag name. -/
theorem c9_skipname_never_prose (realExt raw : String) (toks : List Token) (off : Int)
    (c t : String) (l : Int)
    (hd : Dispatch.prose c t l ∈ lintHTMLTokens realExt raw toks off) :
    StringInSlice t skipTags = false := by
  simp only [lintHTMLTokens] at hd
  exact lintHTMLLoop_prose _ _ _ _ _ _ _ hd

/-- C9 (witness): the invariant applied to a concrete prose dispatch. -/
theorem c9_witness : StringInSlice "hi" skipTags = false :=
  c9_skipname_never_prose "" "hi" [⟨TokenType.TextToken, "hi", []⟩] 0
    "hi" "hi" 1 (by decide)

/-- C10: a comment token is never dispatched as a block of any kind, its
context update runs like that of every token, and updateCtx treats a
comment exactly as a text token. -/
theorem c10_comment_tokens (realExt : String) (lines : Int) (s : WalkState) (tok : Token)
    (h : tok.typ = TokenType.CommentToken) :
    (stepToken realExt lines s tok).2 = []
      ∧ (stepToken realExt lines s tok).1.ctx
          = updateCtx (clearElements s.ctx tok) (prepTok tok) tok.typ
      ∧ ∀ c t, updateCtx c t TokenType.CommentToken = updateCtx c t TokenType.TextToken := by
  refine ⟨?_, stepToken_ctx realExt lines s tok, ?_⟩
  · rw [stepToken_snd]
    simp only [branchStep, h]
    simp
    split <;> rfl
  · intro c t
    simp [updateCtx]

/-- C10 (witness): the comment behavior at a concrete state and token. -/
theorem c10_witness :
    (stepToken "" 1 ⟨"", "", false, "hi"⟩ ⟨TokenType.CommentToken, "hi", []⟩).2 = []
      ∧ updateCtx "x" "y" TokenType.CommentToken = updateCtx "x" "y" TokenType.TextToken :=
  ⟨(c10_comment_tokens "" 1 ⟨"", "", false, "hi"⟩ ⟨TokenType.CommentToken, "hi", []⟩ rfl).1,
    (c10_comment_tokens "" 1 ⟨"", "", false, "hi"⟩ ⟨TokenType.CommentToken, "hi", []⟩ rfl).2.2
      "x" "y"⟩

end Vale

